import Mathlib

/-
  Shallow embedding of the omni-personal MCP gateway core:
  server-health tracking (MCPServerManager), session lifecycle
  (MCPSessionManager), capability resolution (MCPProtocolAdapter)
  and request routing (MCPGateway), together with theorems checking
  the design documentation against the code.
-/

namespace OmniGateway

/- ===== JSON-RPC envelope model ===== -/

/-- A JSON-RPC id: a number, a string, or absent. The constructor keeps
the JSON type of the id, so numeric 42 and the string form of 42 are
distinct values. -/
inductive RpcId where
  | num (n : Int)
  | str (s : String)
  | absent
deriving DecidableEq

/-- The request parameters the router inspects: params.name and params.uri. -/
structure RpcParams where
  name : Option String
  uri : Option String
deriving DecidableEq

/-- JavaScript truthiness of an optional string field: missing and the
empty string are falsy. -/
def truthyStr : Option String → Bool
  | Option.none => false
  | Option.some s => s ≠ ""

/-- The internal MCP request model (a validated JSON-RPC 2.0 request). -/
structure MCPRequest where
  id : RpcId
  method : String
  params : Option RpcParams
deriving DecidableEq

/-- A JSON-RPC error object: code, message, optional string data. -/
structure RpcError where
  code : Int
  message : String
  data : Option String
deriving DecidableEq

/-- Result payloads the gateway itself produces, plus an opaque payload
for responses relayed verbatim from a backend. Tool, resource and prompt
definitions are treated as opaque strings. -/
inductive RpcResult where
  | initRes
  | emptyRes
  | toolsRes (tools : List String)
  | resourcesRes (resources : List String)
  | promptsRes (prompts : List String)
  | backendRes (payload : String)
deriving DecidableEq

/-- A JSON-RPC response envelope. -/
structure MCPResponse where
  id : RpcId
  result : Option RpcResult
  error : Option RpcError
deriving DecidableEq

/- ===== Server Manager (src/unnamed/part_033, MCPServerManager) ===== -/

/-- Outcome of one completed health probe of GET baseUrl/health:
a 2xx response, a non-2xx response, or a network error / 5s timeout
(fetch threw). -/
inductive ProbeOutcome where
  | ok2xx
  | non2xx (status : Nat)
  | netError
deriving DecidableEq

/-- Runtime state of one backend, as stored in MCPServerManager.servers.
activeConnections is modelled as an Int so that its non-negativity is a
real property of the operations rather than of the type. -/
structure ServerInstance where
  id : String
  serverId : String
  url : String
  lastHealthCheck : Int
  isHealthy : Bool
  activeConnections : Int
  capabilities : List String
deriving DecidableEq

/-- The entry the MCPServerManager constructor builds for a configured
backend: isHealthy starts false until the first probe passes. -/
def initServer (serverId url : String) (caps : List String) (now : Int) : ServerInstance :=
  { id := serverId
    serverId := serverId
    url := url
    lastHealthCheck := now
    isHealthy := false
    activeConnections := 0
    capabilities := caps }

/-- MCPServerManager.performHealthCheck: a 2xx response marks the backend
healthy, any non-2xx, timeout or network error marks it unhealthy;
lastHealthCheck is updated unconditionally (the finally block). -/
def performHealthCheck (s : ServerInstance) (outcome : ProbeOutcome) (now : Int) : ServerInstance :=
  match outcome with
  | ProbeOutcome.ok2xx => { s with isHealthy := true, lastHealthCheck := now }
  | ProbeOutcome.non2xx _ => { s with isHealthy := false, lastHealthCheck := now }
  | ProbeOutcome.netError => { s with isHealthy := false, lastHealthCheck := now }

/-- MCPServerManager.getServerInstance for a configured backend: returns
the instance only when isHealthy, incrementing activeConnections; returns
none otherwise. The pair carries the returned value and the updated
state. -/
def getServerInstance (s : ServerInstance) : Option ServerInstance × ServerInstance :=
  if s.isHealthy then
    let s2 := { s with activeConnections := s.activeConnections + 1 }
    (Option.some s2, s2)
  else
    (Option.none, s)

/-- MCPServerManager.releaseServerInstance: decrements activeConnections,
floored at zero. -/
def releaseServerInstance (s : ServerInstance) : ServerInstance :=
  if s.activeConnections > 0 then
    { s with activeConnections := s.activeConnections - 1 }
  else
    s

/-- Events acting on the runtime state of one backend: a completed health
probe with its outcome, a getServerInstance call, a releaseServerInstance
call. -/
inductive SMEvent where
  | probe (outcome : ProbeOutcome) (now : Int)
  | checkout
  | release
deriving DecidableEq

/-- One step of the server-manager state machine for a single backend. -/
def smStep (s : ServerInstance) (e : SMEvent) : ServerInstance :=
  match e with
  | SMEvent.probe o now => performHealthCheck s o now
  | SMEvent.checkout => (getServerInstance s).2
  | SMEvent.release => releaseServerInstance s

/-- Run a sequence of events from a given state. -/
def smRun (s : ServerInstance) : List SMEvent → ServerInstance
  | [] => s
  | e :: es => smRun (smStep s e) es

/-- The outcome of the most recent completed probe in a trace, if any. -/
def lastProbe : List SMEvent → Option ProbeOutcome
  | [] => Option.none
  | e :: es =>
    match lastProbe es with
    | Option.some o => Option.some o
    | Option.none =>
      match e with
      | SMEvent.probe o _ => Option.some o
      | _ => Option.none

/-- Number of checkout events in a trace, as an Int. -/
def numCheckouts : List SMEvent → Int
  | [] => 0
  | e :: rest => (match e with | SMEvent.checkout => 1 | _ => 0) + numCheckouts rest

/-- Number of release events in a trace, as an Int. -/
def numReleases : List SMEvent → Int
  | [] => 0
  | e :: rest => (match e with | SMEvent.release => 1 | _ => 0) + numReleases rest

/-- True when the trace consists only of checkout and release events. -/
def onlyConnEvents : List SMEvent → Bool
  | [] => true
  | e :: rest => (match e with | SMEvent.probe _ _ => false | _ => true) && onlyConnEvents rest

/- ===== Session Manager (src/unnamed/part_032, MCPSessionManager) ===== -/

/-- One client session as stored by MCPSessionManager. The WebSocket
handle is modelled by a flag recording whether a connection is bound. -/
structure Session where
  id : String
  userId : String
  createdAt : Int
  lastActivity : Int
  transport : String
  hasConnection : Bool
deriving DecidableEq

/-- The gateway configuration fields the session manager reads. -/
structure GatewayConfig where
  maxConcurrentSessions : Nat
  sessionTimeout : Int
deriving DecidableEq

/-- The in-memory session map, modelled as an insertion-ordered
association list with JavaScript Map semantics. -/
structure SessionStore where
  sessions : List (String × Session)
deriving DecidableEq

/-- Map.get: first entry with the given key, if any. -/
def storeFind (m : List (String × Session)) (k : String) : Option Session :=
  match m with
  | [] => Option.none
  | p :: rest => if p.1 = k then Option.some p.2 else storeFind rest k

/-- Map.set: replace the entry with the given key in place, or append
a new entry. -/
def mapSet (m : List (String × Session)) (k : String) (v : Session) : List (String × Session) :=
  match m with
  | [] => [(k, v)]
  | p :: rest => if p.1 = k then (k, v) :: rest else p :: mapSet rest k v

/-- MCPSessionManager.createSession: builds a session stamped with now
and stores it under the freshly generated id (the uuid is a parameter
of the model). It performs no capacity check of its own. -/
def createSession (st : SessionStore) (sid userId transport : String) (now : Int) :
    Session × SessionStore :=
  let s : Session :=
    { id := sid
      userId := userId
      createdAt := now
      lastActivity := now
      transport := transport
      hasConnection := false }
  (s, ⟨mapSet st.sessions sid s⟩)

/-- MCPSessionManager.getSession: if the id is present, refresh
lastActivity to now and return the session; otherwise return none.
No expiry check happens here. -/
def getSession (st : SessionStore) (sid : String) (now : Int) :
    Option Session × SessionStore :=
  match storeFind st.sessions sid with
  | Option.some s =>
    let s2 := { s with lastActivity := now }
    (Option.some s2, ⟨mapSet st.sessions sid s2⟩)
  | Option.none => (Option.none, st)

/-- MCPSessionManager.getActiveSessionCount: the size of the session map. -/
def getActiveSessionCount (st : SessionStore) : Nat :=
  st.sessions.length

/-- MCPSessionManager.canCreateNewSession: strict comparison against the
configured bound. -/
def canCreateNewSession (cfg : GatewayConfig) (st : SessionStore) : Bool :=
  st.sessions.length < cfg.maxConcurrentSessions

/-- MCPSessionManager.attachWebSocket: bind a connection to an existing
session and switch its transport to websocket; no-op when absent. -/
def attachWebSocket (st : SessionStore) (sid : String) : SessionStore :=
  match storeFind st.sessions sid with
  | Option.some s =>
    ⟨mapSet st.sessions sid { s with hasConnection := true, transport := "websocket" }⟩
  | Option.none => st

/-- MCPSessionManager.removeSession: delete the entry with the given id
(closing any bound connection); no-op when absent. -/
def removeSession (st : SessionStore) (sid : String) : SessionStore :=
  ⟨st.sessions.filter (fun p => decide (p.1 ≠ sid))⟩

/-- MCPSessionManager.cleanupExpiredSessions: remove every session whose
idle time now - lastActivity exceeds sessionTimeout. -/
def cleanupExpiredSessions (cfg : GatewayConfig) (st : SessionStore) (now : Int) : SessionStore :=
  ⟨st.sessions.filter (fun p => decide (¬ now - p.2.lastActivity > cfg.sessionTimeout))⟩

/-- The session-resolution step of MCPGateway.handleHttpRequest: look up
the session named by a validated bearer token if one was supplied; when
that yields nothing, check capacity and either reject (first component
none, store unchanged) or create an anonymous http session under the
fresh uuid. -/
def httpSessionStep (cfg : GatewayConfig) (st : SessionStore) (authSid : Option String)
    (freshSid : String) (now : Int) : Option Session × SessionStore :=
  let r :=
    match authSid with
    | Option.some sid => getSession st sid now
    | Option.none => (Option.none, st)
  match r with
  | (Option.some s, st1) => (Option.some s, st1)
  | (Option.none, st1) =>
    if canCreateNewSession cfg st1 then
      let c := createSession st1 freshSid "anonymous" "http" now
      (Option.some c.1, c.2)
    else
      (Option.none, st1)

/-- Session-affecting events at the gateway boundary: an HTTP request
(with the session id its bearer token validates to, if any, and the
fresh uuid used if a session is created), a WebSocket connect
(MCPGateway.handleWebSocketConnection), a WebSocket disconnect, and a
tick of the 60s cleanup sweep. -/
inductive SessEvent where
  | httpReq (authSid : Option String) (freshSid : String) (now : Int)
  | wsConnect (freshSid : String) (now : Int)
  | wsDisconnect (sid : String)
  | sweep (now : Int)
deriving DecidableEq

/-- One step of the session-lifecycle state machine. The wsConnect case
mirrors MCPGateway.handleWebSocketConnection: createSession is called
unconditionally, then attachWebSocket. -/
def sessStep (cfg : GatewayConfig) (st : SessionStore) : SessEvent → SessionStore
  | SessEvent.httpReq authSid freshSid now => (httpSessionStep cfg st authSid freshSid now).2
  | SessEvent.wsConnect freshSid now =>
    let c := createSession st freshSid "websocket-user" "websocket" now
    attachWebSocket c.2 c.1.id
  | SessEvent.wsDisconnect sid => removeSession st sid
  | SessEvent.sweep now => cleanupExpiredSessions cfg st now

/-- Run a sequence of session events from a given store. -/
def sessRun (cfg : GatewayConfig) (st : SessionStore) : List SessEvent → SessionStore
  | [] => st
  | e :: es => sessRun cfg (sessStep cfg st e) es

/-- True exactly on WebSocket connect events. -/
def isWsConnectEv : SessEvent → Bool
  | SessEvent.wsConnect _ _ => true
  | _ => false

/-- True when the trace contains a WebSocket connect event. -/
def hasWsConnect : List SessEvent → Bool
  | [] => false
  | e :: rest => isWsConnectEv e || hasWsConnect rest

/- ===== Protocol Adapter (src/apps/gateway/src/gateway/protocol-adapter.ts) ===== -/

/-- The params.name field reached through the optional params object. -/
def paramName (req : MCPRequest) : Option String :=
  req.params.bind (fun p => p.name)

/-- The params.uri field reached through the optional params object. -/
def paramUri (req : MCPRequest) : Option String :=
  req.params.bind (fun p => p.uri)

/-- The routing-key extraction inside MCPProtocolAdapter.resolveCapability:
capabilityToResolve starts as the method and is overwritten by params.name
for tools/call, params.uri for resources/read, params.name for prompts/get,
each only when the field is truthy. -/
def capabilityKeyAdapter (req : MCPRequest) : String :=
  let k0 := req.method
  let k1 :=
    if req.method = "tools/call" && truthyStr (paramName req) then (paramName req).getD k0
    else k0
  let k2 :=
    if req.method = "resources/read" && truthyStr (paramUri req) then (paramUri req).getD k1
    else k1
  if req.method = "prompts/get" && truthyStr (paramName req) then (paramName req).getD k2
  else k2

/-- MCPGateway.getCapabilityToResolve: the same extraction written with
early returns. -/
def getCapabilityToResolve (req : MCPRequest) : String :=
  if req.method = "tools/call" && truthyStr (paramName req) then (paramName req).getD req.method
  else if req.method = "resources/read" && truthyStr (paramUri req) then (paramUri req).getD req.method
  else if req.method = "prompts/get" && truthyStr (paramName req) then (paramName req).getD req.method
  else req.method

/-- The for-of scan over capabilityMap.entries() in resolveCapability:
the first backend whose capability list contains the key wins. -/
def findOwner (key : String) : List (String × List String) → Option String
  | [] => Option.none
  | p :: rest => if p.2.contains key then Option.some p.1 else findOwner key rest

/-- MCPProtocolAdapter.resolveCapability: extract the routing key, then
linear-scan the capability map in iteration order. -/
def resolveCapability (req : MCPRequest) (capabilityMap : List (String × List String)) :
    Option String :=
  findOwner (capabilityKeyAdapter req) capabilityMap

/- ===== Gateway Orchestrator (src/apps/gateway/src/gateway/mcp-gateway.ts) ===== -/

/-- MCPGateway.isProtocolMethod: the fixed allow-list of methods handled
inside the gateway. -/
def isProtocolMethod (m : String) : Bool :=
  ["initialize", "notifications/initialized", "tools/list", "resources/list",
   "prompts/list", "ping"].contains m

/-- Outcome of one nested fan-out fetch to a backend during tools/list,
resources/list or prompts/list: the fetch threw or returned non-2xx; it
returned 2xx without the expected list field; or it returned 2xx with a
list of items. -/
inductive FetchResult (α : Type) where
  | failed
  | okMissing
  | okList (items : List α)
deriving DecidableEq

/-- The accumulation loop shared by getAvailableTools, getAvailableResources
and getAvailablePrompts: push the items of every successful response in
order, skip failures and responses without the list field. -/
def collectFanout {α : Type} : List (FetchResult α) → List α
  | [] => []
  | FetchResult.failed :: rest => collectFanout rest
  | FetchResult.okMissing :: rest => collectFanout rest
  | FetchResult.okList items :: rest => items ++ collectFanout rest

/-- The list a fan-out response contributes to the aggregate: the items
of a successful call, nothing otherwise. Used to state what the
accumulation loop computes. -/
def okItems {α : Type} : FetchResult α → Option (List α)
  | FetchResult.okList items => Option.some items
  | _ => Option.none

/-- MCPGateway.getAvailableTools: iterate over every configured backend
(paired here with the outcome of its nested tools/list call) and
concatenate the reported tool lists. -/
def getAvailableTools (rs : List (String × FetchResult String)) : List String :=
  collectFanout (rs.map Prod.snd)

/-- MCPGateway.getAvailableResources: same loop for resources/list. -/
def getAvailableResources (rs : List (String × FetchResult String)) : List String :=
  collectFanout (rs.map Prod.snd)

/-- MCPGateway.getAvailablePrompts: same loop for prompts/list. -/
def getAvailablePrompts (rs : List (String × FetchResult String)) : List String :=
  collectFanout (rs.map Prod.snd)

/-- MCPGateway.handleProtocolMethod: each branch answers with the id of
the request. -/
def handleProtocolMethod (req : MCPRequest) (tools resources prompts : List String) :
    MCPResponse :=
  if req.method = "initialize" then
    { id := req.id, result := Option.some RpcResult.initRes, error := Option.none }
  else if req.method = "notifications/initialized" then
    { id := req.id, result := Option.some RpcResult.emptyRes, error := Option.none }
  else if req.method = "tools/list" then
    { id := req.id, result := Option.some (RpcResult.toolsRes tools), error := Option.none }
  else if req.method = "resources/list" then
    { id := req.id, result := Option.some (RpcResult.resourcesRes resources), error := Option.none }
  else if req.method = "prompts/list" then
    { id := req.id, result := Option.some (RpcResult.promptsRes prompts), error := Option.none }
  else if req.method = "ping" then
    { id := req.id, result := Option.some RpcResult.emptyRes, error := Option.none }
  else
    { id := req.id, result := Option.none,
      error := Option.some
        { code := -32601, message := "Method not found",
          data := Option.some ("Protocol method " ++ req.method ++ " not implemented") } }

/-- Outcome of the proxy POST to the routed backend: the fetch or the
JSON decoding threw with a message, or a JSON-RPC response came back and
is relayed verbatim (both the response.ok and the error case of the code
return mcpResponse unchanged). -/
inductive BackendCallResult where
  | threw (msg : String)
  | responded (resp : MCPResponse)
deriving DecidableEq

/-- MCPGateway.routeAndExecuteRequest as a function of the request, the
capability map, the server-manager answer for each backend id, the proxy
outcome, and the fan-out outcomes feeding the protocol methods. -/
def routeAndExecuteRequest (req : MCPRequest) (capabilityMap : List (String × List String))
    (getInst : String → Option ServerInstance) (proxy : MCPRequest → BackendCallResult)
    (fanTools fanResources fanPrompts : List (String × FetchResult String)) : MCPResponse :=
  if isProtocolMethod req.method then
    handleProtocolMethod req (getAvailableTools fanTools)
      (getAvailableResources fanResources) (getAvailablePrompts fanPrompts)
  else
    match resolveCapability req capabilityMap with
    | Option.none =>
      { id := req.id, result := Option.none,
        error := Option.some
          { code := -32601, message := "Method not found",
            data := Option.some ("No server found for capability: " ++ getCapabilityToResolve req) } }
    | Option.some serverId =>
      match getInst serverId with
      | Option.none =>
        { id := req.id, result := Option.none,
          error := Option.some
            { code := -32603, message := "Internal error",
              data := Option.some ("No healthy server instances available for: " ++ serverId) } }
      | Option.some _inst =>
        match proxy req with
        | BackendCallResult.threw msg =>
          { id := req.id, result := Option.none,
            error := Option.some
              { code := -32603, message := "Internal error", data := Option.some msg } }
        | BackendCallResult.responded resp => resp

/- ===== Transport layer (handleHttpRequest / handleWebSocketMessage) ===== -/

/-- A parsed JSON request body before validation: the jsonrpc field as
present or absent, the method with the empty string standing for a falsy
or missing method, the id and the params. A null body is modelled by
Option.none around this structure. -/
structure RawBody where
  jsonrpc : Option String
  method : String
  id : RpcId
  params : Option RpcParams
deriving DecidableEq

/-- MCPProtocolAdapter.handleHttpToMCP: throws (Except.error) unless the
body is present with jsonrpc equal to 2.0 and a truthy method. -/
def handleHttpToMCP : Option RawBody → Except String MCPRequest
  | Option.none => Except.error "Invalid JSON-RPC request"
  | Option.some b =>
    if b.jsonrpc = Option.some "2.0" && b.method ≠ "" then
      Except.ok { id := b.id, method := b.method, params := b.params }
    else
      Except.error "Invalid JSON-RPC request"

/-- What MCPGateway.handleHttpRequest sends back: either a JSON-RPC
response envelope, or the plain GatewayHTTPResponse shape with success
and error fields that the top-level catch produces. -/
inductive HttpReply where
  | rpc (resp : MCPResponse)
  | plain (success : Bool) (errMsg : String)
deriving DecidableEq

/-- True exactly when the reply is a JSON-RPC envelope. -/
def HttpReply.isJsonRpc : HttpReply → Bool
  | HttpReply.rpc _ => true
  | HttpReply.plain _ _ => false

/-- MCPGateway.handleHttpRequest: resolve the session from the headers
(hasSession says whether that produced one); when it did not, a failed
capacity check throws and the catch returns the plain shape; then the
body is validated, a validation error likewise lands in the catch; a
validated request is routed and its JSON-RPC response returned directly. -/
def handleHttpRequest (hasSession canCreate : Bool) (body : Option RawBody)
    (route : MCPRequest → MCPResponse) : HttpReply :=
  if !hasSession && !canCreate then
    HttpReply.plain false "Maximum concurrent sessions reached"
  else
    match handleHttpToMCP body with
    | Except.error msg => HttpReply.plain false msg
    | Except.ok req => HttpReply.rpc (route req)

/-- A raw WebSocket text frame as seen by handleWebSocketMessage: either
JSON.parse throws, or it yields a JSON value modelled like the HTTP body. -/
inductive WsRaw where
  | malformed
  | parsed (b : Option RawBody)
deriving DecidableEq

/-- The parse-error frame handleWebSocketMessage writes to the socket:
a JSON-RPC response with code -32700 and no id. -/
def parseErrorResp : MCPResponse :=
  { id := RpcId.absent, result := Option.none,
    error := Option.some { code := -32700, message := "Parse error", data := Option.none } }

/-- MCPProtocolAdapter.handleWebSocketMessage: returns the validated
request, or none after pushing the -32700 frame over the socket (the
second component is the frame sent, if any). -/
def handleWebSocketMessage : WsRaw → Option MCPRequest × Option MCPResponse
  | WsRaw.malformed => (Option.none, Option.some parseErrorResp)
  | WsRaw.parsed b =>
    match b with
    | Option.none => (Option.none, Option.some parseErrorResp)
    | Option.some rb =>
      if rb.jsonrpc = Option.some "2.0" && rb.method ≠ "" then
        (Option.some { id := rb.id, method := rb.method, params := rb.params }, Option.none)
      else
        (Option.none, Option.some parseErrorResp)

/- ===== Concrete example values used in witnesses and counterexamples ===== -/

/-- A tools/call request for the linear_get_teams tool with numeric id 7. -/
def reqTeams : MCPRequest :=
  { id := RpcId.num 7, method := "tools/call",
    params := Option.some { name := Option.some "linear_get_teams", uri := Option.none } }

/-- A tools/call request for a tool nobody implements. -/
def reqUnknownTool : MCPRequest :=
  { id := RpcId.num 3, method := "tools/call",
    params := Option.some { name := Option.some "nonexistent_tool", uri := Option.none } }

/-- A ping request with numeric id 42. -/
def pingNum42 : MCPRequest :=
  { id := RpcId.num 42, method := "ping", params := Option.none }

/-- A tools/call request with string id abc for a tool nobody implements. -/
def reqStrAbc : MCPRequest :=
  { id := RpcId.str "abc", method := "tools/call",
    params := Option.some { name := Option.some "nonexistent_tool", uri := Option.none } }

/-- A tools/call request with no params object at all. -/
def reqNoParams : MCPRequest :=
  { id := RpcId.num 1, method := "tools/call", params := Option.none }

/-- A capability map where backend linear owns linear_get_teams and a
second backend erroneously declares the same capability name. -/
def capsEx : List (String × List String) :=
  [("linear", ["linear_get_teams"]), ("shadow", ["linear_get_teams"])]

/-- A valid JSON-RPC request body. -/
def bodyOkEx : RawBody :=
  { jsonrpc := Option.some "2.0", method := "tools/call", id := RpcId.num 1,
    params := Option.none }

/-- A constant routing function used where the routing outcome is
irrelevant to the statement. -/
def routeConst : MCPRequest → MCPResponse :=
  fun req => { id := req.id, result := Option.some RpcResult.emptyRes, error := Option.none }

/-- A proxy call that always throws. -/
def proxyThrew : MCPRequest → BackendCallResult :=
  fun _ => BackendCallResult.threw "fetch failed"

/-- A server-manager view with no healthy instance for any backend. -/
def noInst : String → Option ServerInstance :=
  fun _ => Option.none

/-- A backend runtime state that has just passed its first health probe. -/
def sHealthyEx : ServerInstance :=
  performHealthCheck (initServer "linear" "http://localhost:3001" ["linear_get_teams"] 0)
    ProbeOutcome.ok2xx 0

/- ===== Theorems ===== -/

/-- Checkout events do not change the health flag. -/
theorem isHealthy_smStep_checkout (s : ServerInstance) :
    (smStep s SMEvent.checkout).isHealthy = s.isHealthy := by
  unfold smStep getServerInstance
  by_cases hs : s.isHealthy <;> simp [hs]

/-- Release events do not change the health flag. -/
theorem isHealthy_smStep_release (s : ServerInstance) :
    (smStep s SMEvent.release).isHealthy = s.isHealthy := by
  unfold smStep releaseServerInstance
  by_cases hc : s.activeConnections > 0 <;> simp [hc]

/-- Health flag after a trace: decided by the most recent completed probe,
falling back to the initial flag when no probe completed. -/
theorem smRun_isHealthy (tr : List SMEvent) : ∀ s : ServerInstance,
    (smRun s tr).isHealthy =
      (match lastProbe tr with
       | Option.some ProbeOutcome.ok2xx => true
       | Option.some _ => false
       | Option.none => s.isHealthy) := by
  induction tr with
  | nil => intro s; rfl
  | cons e es ih =>
    intro s
    rw [smRun, ih]
    cases h : lastProbe es with
    | some o => cases o <;> simp [lastProbe, h]
    | none =>
      cases e with
      | probe o now => cases o <;> simp [lastProbe, h, smStep, performHealthCheck]
      | checkout => simp [lastProbe, h, isHealthy_smStep_checkout]
      | release => simp [lastProbe, h, isHealthy_smStep_release]

/-- getServerInstance answers non-null exactly on a healthy flag. -/
theorem getServerInstance_fst_ne_none (s : ServerInstance) :
    ((getServerInstance s).1 ≠ Option.none) ↔ s.isHealthy = true := by
  unfold getServerInstance
  by_cases hs : s.isHealthy <;> simp [hs]

/-- C1: for every configured backend, after any trace of completed health
probes, checkouts and releases starting from the constructor state,
getServerInstance returns a non-null instance exactly when the most
recent completed probe observed a 2xx response; for a backend whose last
probe returned non-2xx, timed out or threw, or that never completed a
probe, it returns null. -/
theorem getServerInstance_health_gate (serverId url : String) (caps : List String)
    (t0 : Int) (tr : List SMEvent) :
    ((getServerInstance (smRun (initServer serverId url caps t0) tr)).1 ≠ Option.none) ↔
      lastProbe tr = Option.some ProbeOutcome.ok2xx := by
  rw [getServerInstance_fst_ne_none, smRun_isHealthy]
  cases h : lastProbe tr with
  | none => simp [initServer]
  | some o => cases o <;> simp

/-- Connection counter stays non-negative across any trace. -/
theorem smRun_conns_nonneg (tr : List SMEvent) : ∀ s : ServerInstance,
    0 ≤ s.activeConnections → 0 ≤ (smRun s tr).activeConnections := by
  induction tr with
  | nil => intro s h; simpa [smRun] using h
  | cons e es ih =>
    intro s h
    rw [smRun]
    apply ih
    cases e with
    | probe o now => cases o <;> simpa [smStep, performHealthCheck] using h
    | checkout =>
      unfold smStep getServerInstance
      by_cases hs : s.isHealthy <;> simp [hs] <;> omega
    | release =>
      unfold smStep releaseServerInstance
      by_cases hc : s.activeConnections > 0 <;> simp [hc] <;> omega

/-- Counter difference identity for traces of checkouts and releases from
a healthy state, under the condition that no prefix releases more than it
checked out (relative to the starting count). -/
theorem smRun_conns_diff (tr : List SMEvent) : ∀ s : ServerInstance,
    s.isHealthy = true → onlyConnEvents tr = true →
    (∀ p q, tr = p ++ q → numReleases p ≤ s.activeConnections + numCheckouts p) →
    (smRun s tr).activeConnections = s.activeConnections + numCheckouts tr - numReleases tr := by
  induction tr with
  | nil =>
    intro s _ _ _
    simp [smRun, numCheckouts, numReleases]
  | cons e es ih =>
    intro s hh hev hpre
    cases e with
    | probe o now => simp [onlyConnEvents] at hev
    | checkout =>
      have hev2 : onlyConnEvents es = true := by
        simpa [onlyConnEvents] using hev
      have hstep : smStep s SMEvent.checkout =
          { s with activeConnections := s.activeConnections + 1 } := by
        simp [smStep, getServerInstance, hh]
      have hpre2 : ∀ p q, es = p ++ q →
          numReleases p ≤
            ({ s with activeConnections := s.activeConnections + 1 } : ServerInstance).activeConnections
              + numCheckouts p := by
        intro p q hpq
        have h1 := hpre (SMEvent.checkout :: p) q (by rw [hpq]; rfl)
        simp [numReleases, numCheckouts] at h1 ⊢
        omega
      have heq := ih { s with activeConnections := s.activeConnections + 1 } hh hev2 hpre2
      rw [smRun, hstep, heq]
      simp [numCheckouts, numReleases]
      omega
    | release =>
      have hev2 : onlyConnEvents es = true := by
        simpa [onlyConnEvents] using hev
      have hpos : 0 < s.activeConnections := by
        have h1 := hpre [SMEvent.release] es rfl
        simp [numReleases, numCheckouts] at h1
        omega
      have hstep : smStep s SMEvent.release =
          { s with activeConnections := s.activeConnections - 1 } := by
        simp [smStep, releaseServerInstance, hpos]
      have hpre2 : ∀ p q, es = p ++ q →
          numReleases p ≤
            ({ s with activeConnections := s.activeConnections - 1 } : ServerInstance).activeConnections
              + numCheckouts p := by
        intro p q hpq
        have h1 := hpre (SMEvent.release :: p) q (by rw [hpq]; rfl)
        simp [numReleases, numCheckouts] at h1 ⊢
        omega
      have heq := ih { s with activeConnections := s.activeConnections - 1 } hh hev2 hpre2
      rw [smRun, hstep, heq]
      simp [numCheckouts, numReleases]
      omega

/-- C3 counterexample: from a healthy backend with zero connections, the
event sequence checkout, release, release leaves activeConnections at 0,
while the number of checkouts minus the number of releases is -1, so the
claimed equality fails once releases outnumber checkouts (the decrement
is floored at zero). -/
theorem activeConnections_not_checkout_difference :
    (smRun sHealthyEx [SMEvent.checkout, SMEvent.release, SMEvent.release]).activeConnections = 0
  ∧ numCheckouts [SMEvent.checkout, SMEvent.release, SMEvent.release]
      - numReleases [SMEvent.checkout, SMEvent.release, SMEvent.release] = -1
  ∧ (smRun sHealthyEx [SMEvent.checkout, SMEvent.release, SMEvent.release]).activeConnections
      ≠ numCheckouts [SMEvent.checkout, SMEvent.release, SMEvent.release]
        - numReleases [SMEvent.checkout, SMEvent.release, SMEvent.release] := by
  refine ⟨rfl, rfl, ?_⟩
  decide

/-- C3 amended: activeConnections never goes negative on any trace, and
it equals the number of successful checkouts minus the number of releases
on every trace of checkouts and releases from a healthy zero-connection
state in which no prefix contains more releases than checkouts. -/
theorem activeConnections_nonneg_and_difference (s0 : ServerInstance) (tr : List SMEvent)
    (h0 : 0 ≤ s0.activeConnections) :
    0 ≤ (smRun s0 tr).activeConnections
  ∧ (s0.activeConnections = 0 → s0.isHealthy = true → onlyConnEvents tr = true →
      (∀ p q, tr = p ++ q → numReleases p ≤ numCheckouts p) →
      (smRun s0 tr).activeConnections = numCheckouts tr - numReleases tr) := by
  refine ⟨smRun_conns_nonneg tr s0 h0, ?_⟩
  intro hz hh hev hpre
  have heq := smRun_conns_diff tr s0 hh hev (by
    intro p q hpq
    have h1 := hpre p q hpq
    omega)
  omega

/-- C3 amended, witness: concrete run of one checkout then one release on
a healthy backend, where the counter indeed matches the difference. -/
theorem activeConnections_nonneg_and_difference_witness :
    0 ≤ (smRun sHealthyEx [SMEvent.checkout, SMEvent.release]).activeConnections
  ∧ (smRun sHealthyEx [SMEvent.checkout, SMEvent.release]).activeConnections
      = numCheckouts [SMEvent.checkout, SMEvent.release]
        - numReleases [SMEvent.checkout, SMEvent.release] := by
  have h := activeConnections_nonneg_and_difference sHealthyEx
    [SMEvent.checkout, SMEvent.release] (by decide)
  refine ⟨h.1, h.2 (by decide) (by decide) (by decide) ?_⟩
  intro p q hpq
  cases p with
  | nil => simp [numReleases, numCheckouts]
  | cons a p2 =>
    cases p2 with
    | nil =>
      have ha : a = SMEvent.checkout := by
        have := congrArg (fun l => l.head?) hpq
        simpa using this.symm
      subst ha
      simp [numReleases, numCheckouts]
    | cons b p3 =>
      cases p3 with
      | nil =>
        have ha : a = SMEvent.checkout ∧ b = SMEvent.release := by
          have h1 := congrArg (fun l => l.head?) hpq
          have h2 := congrArg (fun l => l.tail.head?) hpq
          simp at h1 h2
          exact ⟨h1.symm, h2.symm⟩
        rcases ha with ⟨ha1, ha2⟩
        subst ha1; subst ha2
        simp [numReleases, numCheckouts]
      | cons c p4 =>
        have := congrArg List.length hpq
        simp at this

/-- Size of the session map after Map.set: grows by one exactly when the
key was absent. -/
theorem length_mapSet (m : List (String × Session)) (k : String) (v : Session) :
    (mapSet m k v).length =
      if storeFind m k = Option.none then m.length + 1 else m.length := by
  induction m with
  | nil => simp [mapSet, storeFind]
  | cons p rest ih =>
    by_cases h : p.1 = k
    · simp [mapSet, storeFind, h]
    · by_cases h2 : storeFind rest k = Option.none <;>
        simp [mapSet, storeFind, h, ih, h2]

/-- Map.set grows the map by at most one entry. -/
theorem length_mapSet_le (m : List (String × Session)) (k : String) (v : Session) :
    (mapSet m k v).length ≤ m.length + 1 := by
  rw [length_mapSet]
  split <;> omega

/-- getSession never changes the size of the session map. -/
theorem getSession_length (st : SessionStore) (sid : String) (now : Int) :
    ((getSession st sid now).2).sessions.length = st.sessions.length := by
  unfold getSession
  cases h : storeFind st.sessions sid with
  | none => rfl
  | some s => simp [length_mapSet, h]

/-- The HTTP session-resolution step keeps the session count within the
configured bound: it creates only after canCreateNewSession passes. -/
theorem httpSessionStep_length_le (cfg : GatewayConfig) (st : SessionStore)
    (authSid : Option String) (freshSid : String) (now : Int)
    (h : st.sessions.length ≤ cfg.maxConcurrentSessions) :
    ((httpSessionStep cfg st authSid freshSid now).2).sessions.length
      ≤ cfg.maxConcurrentSessions := by
  have hcreate : ∀ st1 : SessionStore, canCreateNewSession cfg st1 = true →
      ((createSession st1 freshSid "anonymous" "http" now).2).sessions.length
        ≤ cfg.maxConcurrentSessions := by
    intro st1 hc
    unfold canCreateNewSession at hc
    simp at hc
    have hle := length_mapSet_le st1.sessions freshSid
      { id := freshSid, userId := "anonymous", createdAt := now, lastActivity := now,
        transport := "http", hasConnection := false }
    show (mapSet st1.sessions freshSid
      { id := freshSid, userId := "anonymous", createdAt := now, lastActivity := now,
        transport := "http", hasConnection := false }).length ≤ cfg.maxConcurrentSessions
    omega
  unfold httpSessionStep
  cases authSid with
  | none =>
    show (if canCreateNewSession cfg st = true then
            (Option.some (createSession st freshSid "anonymous" "http" now).1,
              (createSession st freshSid "anonymous" "http" now).2)
          else (Option.none, st)).2.sessions.length ≤ cfg.maxConcurrentSessions
    split
    next hc => exact hcreate st hc
    next => simpa using h
  | some sid =>
    cases hf : storeFind st.sessions sid with
    | some s =>
      simp only [getSession, hf]
      have h2 : (mapSet st.sessions sid { s with lastActivity := now }).length
          = st.sessions.length := by
        rw [length_mapSet]
        simp [hf]
      show (mapSet st.sessions sid { s with lastActivity := now }).length
        ≤ cfg.maxConcurrentSessions
      omega
    | none =>
      simp only [getSession, hf]
      show (if canCreateNewSession cfg st = true then
              (Option.some (createSession st freshSid "anonymous" "http" now).1,
                (createSession st freshSid "anonymous" "http" now).2)
            else (Option.none, st)).2.sessions.length ≤ cfg.maxConcurrentSessions
      split
      next hc => exact hcreate st hc
      next => simpa using h

/-- Any session step other than a WebSocket connect keeps the count
within the bound. -/
theorem sessStep_length_le (cfg : GatewayConfig) (st : SessionStore) (e : SessEvent)
    (hnw : isWsConnectEv e = false)
    (h : st.sessions.length ≤ cfg.maxConcurrentSessions) :
    (sessStep cfg st e).sessions.length ≤ cfg.maxConcurrentSessions := by
  cases e with
  | httpReq a f n => exact httpSessionStep_length_le cfg st a f n h
  | wsConnect f n => simp [isWsConnectEv] at hnw
  | wsDisconnect sid =>
    unfold sessStep removeSession
    exact le_trans (List.length_filter_le _ _) h
  | sweep n =>
    unfold sessStep cleanupExpiredSessions
    exact le_trans (List.length_filter_le _ _) h

/-- C2 counterexample: with maxConcurrentSessions equal to 1, two
WebSocket connections drive the active session count to 2, because
handleWebSocketConnection calls createSession without any capacity check
and createSession itself never fails: the capacity bound is violated on
the WebSocket session-creating path. -/
theorem wsConnect_exceeds_capacity :
    getActiveSessionCount
      (sessRun { maxConcurrentSessions := 1, sessionTimeout := 1000 } ⟨[]⟩
        [SessEvent.wsConnect "sid-a" 0, SessEvent.wsConnect "sid-b" 0]) = 2
  ∧ ¬ getActiveSessionCount
      (sessRun { maxConcurrentSessions := 1, sessionTimeout := 1000 } ⟨[]⟩
        [SessEvent.wsConnect "sid-a" 0, SessEvent.wsConnect "sid-b" 0])
      ≤ ({ maxConcurrentSessions := 1, sessionTimeout := 1000 } : GatewayConfig).maxConcurrentSessions := by
  decide

/-- C2 amended: the session count never exceeds maxConcurrentSessions
over any sequence of HTTP requests, WebSocket disconnects and cleanup
sweeps, because the HTTP path checks canCreateNewSession and rejects
before creating; the bound can only be exceeded through the WebSocket
connection path, which creates sessions unconditionally. -/
theorem sessionCount_bounded_without_ws (cfg : GatewayConfig) (tr : List SessEvent) :
    ∀ st : SessionStore, getActiveSessionCount st ≤ cfg.maxConcurrentSessions →
    hasWsConnect tr = false →
    getActiveSessionCount (sessRun cfg st tr) ≤ cfg.maxConcurrentSessions := by
  induction tr with
  | nil =>
    intro st h0 _
    simpa [sessRun] using h0
  | cons e es ih =>
    intro st h0 hws
    rw [hasWsConnect, Bool.or_eq_false_iff] at hws
    rw [sessRun]
    exact ih (sessStep cfg st e) (sessStep_length_le cfg st e hws.1 h0) hws.2

/-- C2 amended, witness: at capacity 1, two anonymous HTTP requests leave
the count at the bound (the second is rejected rather than creating). -/
theorem sessionCount_bounded_without_ws_witness :
    getActiveSessionCount
      (sessRun { maxConcurrentSessions := 1, sessionTimeout := 1000 } ⟨[]⟩
        [SessEvent.httpReq Option.none "sid-a" 0, SessEvent.httpReq Option.none "sid-b" 0])
      ≤ ({ maxConcurrentSessions := 1, sessionTimeout := 1000 } : GatewayConfig).maxConcurrentSessions :=
  sessionCount_bounded_without_ws { maxConcurrentSessions := 1, sessionTimeout := 1000 }
    [SessEvent.httpReq Option.none "sid-a" 0, SessEvent.httpReq Option.none "sid-b" 0]
    ⟨[]⟩ (by decide) (by decide)

/-- C9 counterexample: with sessionTimeout 1000, a session created at
time 0 and looked up at time 5000 is idle far past the timeout, yet
getSession still returns it (and refreshes it) because getSession never
checks expiry; only the periodic sweep removes expired sessions. -/
theorem getSession_returns_expired_session :
    (5000 : Int) - ((createSession ⟨[]⟩ "s1" "anonymous" "http" 0).1).lastActivity > 1000
  ∧ (getSession (createSession ⟨[]⟩ "s1" "anonymous" "http" 0).2 "s1" 5000).1 ≠ Option.none := by
  decide

/-- When filtering drops every entry stored under a key, lookup of that
key in the filtered list fails. -/
theorem storeFind_filter_none (sid : String) (f : String × Session → Bool) :
    ∀ m : List (String × Session),
    (∀ p ∈ m, p.1 = sid → f p = false) →
    storeFind (m.filter f) sid = Option.none := by
  intro m
  induction m with
  | nil => intro _; rfl
  | cons p rest ih =>
    intro h
    have hrest := fun q hq hk => h q (List.mem_cons_of_mem p hq) hk
    by_cases hk : p.1 = sid
    · have hf := h p (List.mem_cons_self p rest) hk
      simp [List.filter_cons, hf, ih hrest]
    · cases hf : f p
      · simp [List.filter_cons, hf, ih hrest]
      · simp [List.filter_cons, hf, storeFind, hk, ih hrest]

/-- C9 amended: getSession returns the stored session, with lastActivity
refreshed to the time of the call, whenever the id is present in the map
regardless of how long it has been idle; it returns null exactly when the
id is absent; and sessions idle longer than sessionTimeout disappear from
getSession only after a cleanupExpiredSessions sweep has removed them. -/
theorem getSession_presence_and_sweep (st : SessionStore) (sid : String) (now : Int)
    (cfg : GatewayConfig) (tSweep : Int) :
    (∀ s, storeFind st.sessions sid = Option.some s →
      (getSession st sid now).1 = Option.some { s with lastActivity := now })
  ∧ (storeFind st.sessions sid = Option.none → (getSession st sid now).1 = Option.none)
  ∧ ((∀ p ∈ st.sessions, p.1 = sid → tSweep - p.2.lastActivity > cfg.sessionTimeout) →
      (getSession (cleanupExpiredSessions cfg st tSweep) sid now).1 = Option.none) := by
  refine ⟨?_, ?_, ?_⟩
  · intro s hf
    simp [getSession, hf]
  · intro hf
    simp [getSession, hf]
  · intro hall
    have hnone := storeFind_filter_none sid
      (fun p => decide (¬ tSweep - p.2.lastActivity > cfg.sessionTimeout)) st.sessions
      (by
        intro p hp hk
        have hexp := hall p hp hk
        simp only [decide_eq_false_iff_not]
        omega)
    simp only [getSession, cleanupExpiredSessions, hnone]

/-- C9 amended, witness: a session created at time 0 is still returned,
refreshed, at time 5000 with timeout 1000; after a sweep at time 9000 it
is gone. -/
theorem getSession_presence_and_sweep_witness :
    (getSession (createSession ⟨[]⟩ "s1" "anonymous" "http" 0).2 "s1" 5000).1
      = Option.some { (createSession ⟨[]⟩ "s1" "anonymous" "http" 0).1 with lastActivity := 5000 }
  ∧ (getSession
      (cleanupExpiredSessions { maxConcurrentSessions := 10, sessionTimeout := 1000 }
        (createSession ⟨[]⟩ "s1" "anonymous" "http" 0).2 9000) "s1" 5000).1
      = Option.none :=
  ⟨(getSession_presence_and_sweep (createSession ⟨[]⟩ "s1" "anonymous" "http" 0).2 "s1" 5000
      { maxConcurrentSessions := 10, sessionTimeout := 1000 } 9000).1 _ rfl,
   (getSession_presence_and_sweep (createSession ⟨[]⟩ "s1" "anonymous" "http" 0).2 "s1" 5000
      { maxConcurrentSessions := 10, sessionTimeout := 1000 } 9000).2.2 (by decide)⟩

/-- The linear scan of the capability map is the first match in iteration
order. -/
theorem findOwner_eq_find (key : String) (l : List (String × List String)) :
    findOwner key l = Option.map Prod.fst (l.find? (fun p => p.2.contains key)) := by
  induction l with
  | nil => rfl
  | cons p rest ih =>
    cases h : p.2.contains key
    · have hmem : key ∉ p.2 := by simpa using h
      rw [findOwner, if_neg (by simpa using h)]
      simp [List.find?_cons, hmem, ih]
    · have hmem : key ∈ p.2 := by simpa using h
      rw [findOwner, if_pos h]
      simp [List.find?_cons, hmem]

/-- C6: resolveCapability extracts the routing key as params.name for
tools/call, params.uri for resources/read, params.name for prompts/get
(whenever the field is present and truthy), and the method string for any
other method; it then returns the first backend in capability-map
iteration order whose capability list contains that key, or null when
none does, so duplicate declarations are won deterministically by the
first backend in iteration order. -/
theorem resolveCapability_key_and_first_match (req : MCPRequest)
    (capabilityMap : List (String × List String)) (n u : String) :
    (req.method = "tools/call" → paramName req = Option.some n → n ≠ "" →
        capabilityKeyAdapter req = n)
  ∧ (req.method = "resources/read" → paramUri req = Option.some u → u ≠ "" →
        capabilityKeyAdapter req = u)
  ∧ (req.method = "prompts/get" → paramName req = Option.some n → n ≠ "" →
        capabilityKeyAdapter req = n)
  ∧ (req.method ≠ "tools/call" → req.method ≠ "resources/read" → req.method ≠ "prompts/get" →
        capabilityKeyAdapter req = req.method)
  ∧ resolveCapability req capabilityMap =
      Option.map Prod.fst
        (capabilityMap.find? (fun p => p.2.contains (capabilityKeyAdapter req))) := by
  refine ⟨?_, ?_, ?_, ?_, ?_⟩
  · intro hm hn hne
    simp [capabilityKeyAdapter, hm, hn, truthyStr, hne]
  · intro hm hu hne
    simp [capabilityKeyAdapter, hm, hu, truthyStr, hne]
  · intro hm hn hne
    simp [capabilityKeyAdapter, hm, hn, truthyStr, hne]
  · intro h1 h2 h3
    simp [capabilityKeyAdapter, h1, h2, h3]
  · exact findOwner_eq_find (capabilityKeyAdapter req) capabilityMap

/-- C6, witness: a tools/call for linear_get_teams routes on the tool
name, and with a second backend declaring the same capability the first
one in iteration order wins. -/
theorem resolveCapability_key_and_first_match_witness :
    capabilityKeyAdapter reqTeams = "linear_get_teams"
  ∧ resolveCapability reqTeams capsEx = Option.some "linear" := by
  have h := resolveCapability_key_and_first_match reqTeams capsEx "linear_get_teams" "u"
  refine ⟨h.1 rfl rfl (by decide), ?_⟩
  rw [h.2.2.2.2]
  decide

/-- C10: when a tools/call, resources/read or prompts/get request omits
or has a falsy value for its routing parameter, the key extraction in
both resolveCapability and getCapabilityToResolve falls back to the
method string itself, and resolveCapability scans the map with the method
string as the key. -/
theorem falsy_param_falls_back_to_method (req : MCPRequest)
    (capabilityMap : List (String × List String)) :
    ((req.method = "tools/call" ∨ req.method = "prompts/get") →
        truthyStr (paramName req) = false →
        capabilityKeyAdapter req = req.method ∧ getCapabilityToResolve req = req.method)
  ∧ (req.method = "resources/read" → truthyStr (paramUri req) = false →
        capabilityKeyAdapter req = req.method ∧ getCapabilityToResolve req = req.method)
  ∧ (truthyStr (paramName req) = false → truthyStr (paramUri req) = false →
        resolveCapability req capabilityMap = findOwner req.method capabilityMap) := by
  refine ⟨?_, ?_, ?_⟩
  · rintro (hm | hm) hfn <;>
      simp [capabilityKeyAdapter, getCapabilityToResolve, hm, hfn]
  · intro hm hfu
    by_cases hfn : truthyStr (paramName req) = true
    · simp [capabilityKeyAdapter, getCapabilityToResolve, hm, hfu, hfn]
    · simp at hfn
      simp [capabilityKeyAdapter, getCapabilityToResolve, hm, hfu, hfn]
  · intro hfn hfu
    have hkey : capabilityKeyAdapter req = req.method := by
      simp [capabilityKeyAdapter, hfn, hfu]
    rw [resolveCapability, hkey]

/-- C10, witness: a tools/call request with no params object routes on
the method string tools/call in both extraction functions. -/
theorem falsy_param_falls_back_to_method_witness :
    capabilityKeyAdapter reqNoParams = "tools/call"
  ∧ getCapabilityToResolve reqNoParams = "tools/call" :=
  (falsy_param_falls_back_to_method reqNoParams []).1 (Or.inl rfl) rfl

/-- The fan-out accumulation loop equals the flattening of the lists
reported by the successful calls, in order. -/
theorem collectFanout_eq {α : Type} (l : List (FetchResult α)) :
    collectFanout l = (l.filterMap okItems).flatten := by
  induction l with
  | nil => rfl
  | cons r rest ih =>
    cases r <;> simp [collectFanout, okItems, List.filterMap_cons, ih]

/-- C5: tools/list, resources/list and prompts/list each consult every
configured backend in sequence, healthy or not, and return exactly the
concatenation of the lists reported by the backends whose nested call
succeeded; a backend whose call threw or returned non-2xx contributes
nothing and no error is surfaced, the result being a plain list. -/
theorem fanout_partial_failure (fanTools fanResources fanPrompts :
    List (String × FetchResult String)) :
    getAvailableTools fanTools = ((fanTools.map Prod.snd).filterMap okItems).flatten
  ∧ getAvailableResources fanResources =
      ((fanResources.map Prod.snd).filterMap okItems).flatten
  ∧ getAvailablePrompts fanPrompts =
      ((fanPrompts.map Prod.snd).filterMap okItems).flatten := by
  unfold getAvailableTools getAvailableResources getAvailablePrompts
  exact ⟨collectFanout_eq (fanTools.map Prod.snd),
    collectFanout_eq (fanResources.map Prod.snd),
    collectFanout_eq (fanPrompts.map Prod.snd)⟩

/-- C4: for a non-protocol-method request, failed capability resolution
yields the JSON-RPC error -32601 Method not found carrying the unresolved
capability name in error.data, while a resolved backend for which the
server manager returns no healthy instance yields -32603 Internal error
naming the backend; the two failure modes carry distinct error codes. -/
theorem routing_error_codes (req : MCPRequest) (capabilityMap : List (String × List String))
    (getInst : String → Option ServerInstance) (proxy : MCPRequest → BackendCallResult)
    (fanTools fanResources fanPrompts : List (String × FetchResult String))
    (hnp : isProtocolMethod req.method = false) :
    (resolveCapability req capabilityMap = Option.none →
      routeAndExecuteRequest req capabilityMap getInst proxy fanTools fanResources fanPrompts
        = { id := req.id, result := Option.none,
            error := Option.some
              { code := -32601, message := "Method not found",
                data := Option.some
                  ("No server found for capability: " ++ getCapabilityToResolve req) } })
  ∧ (∀ serverId, resolveCapability req capabilityMap = Option.some serverId →
      getInst serverId = Option.none →
      routeAndExecuteRequest req capabilityMap getInst proxy fanTools fanResources fanPrompts
        = { id := req.id, result := Option.none,
            error := Option.some
              { code := -32603, message := "Internal error",
                data := Option.some
                  ("No healthy server instances available for: " ++ serverId) } })
  ∧ (-32601 : Int) ≠ -32603 := by
  refine ⟨?_, ?_, by decide⟩
  · intro hres
    simp [routeAndExecuteRequest, hnp, hres]
  · intro serverId hres hinst
    simp [routeAndExecuteRequest, hnp, hres, hinst]

/-- C4, witness: a tools/call for a tool nobody implements gets -32601,
and a tools/call for linear_get_teams while linear has no healthy
instance gets -32603 naming linear. -/
theorem routing_error_codes_witness :
    routeAndExecuteRequest reqUnknownTool capsEx noInst proxyThrew [] [] []
      = { id := reqUnknownTool.id, result := Option.none,
          error := Option.some
            { code := -32601, message := "Method not found",
              data := Option.some
                ("No server found for capability: " ++ getCapabilityToResolve reqUnknownTool) } }
  ∧ routeAndExecuteRequest reqTeams capsEx noInst proxyThrew [] [] []
      = { id := reqTeams.id, result := Option.none,
          error := Option.some
            { code := -32603, message := "Internal error",
              data := Option.some
                ("No healthy server instances available for: " ++ "linear") } } :=
  ⟨(routing_error_codes reqUnknownTool capsEx noInst proxyThrew [] [] [] rfl).1 rfl,
   (routing_error_codes reqTeams capsEx noInst proxyThrew [] [] [] rfl).2.1 "linear" rfl rfl⟩

/-- C8: every gateway-generated response carries exactly the id of the
request: the protocol-method handlers, the -32601 no-backend error, the
-32603 unhealthy-backend error, and the -32603 produced when the proxy
call throws, all copy request.id unchanged (numbers stay numbers,
strings stay strings); only a response relayed verbatim from a backend
can carry a different id. -/
theorem gateway_id_preserved (req : MCPRequest) (capabilityMap : List (String × List String))
    (getInst : String → Option ServerInstance) (proxy : MCPRequest → BackendCallResult)
    (fanTools fanResources fanPrompts : List (String × FetchResult String))
    (h : isProtocolMethod req.method = true
      ∨ resolveCapability req capabilityMap = Option.none
      ∨ (∃ serverId, resolveCapability req capabilityMap = Option.some serverId ∧
          getInst serverId = Option.none)
      ∨ (∃ msg, proxy req = BackendCallResult.threw msg)) :
    (routeAndExecuteRequest req capabilityMap getInst proxy fanTools fanResources fanPrompts).id
      = req.id := by
  by_cases hp : isProtocolMethod req.method = true
  · simp only [routeAndExecuteRequest, hp, if_true]
    unfold handleProtocolMethod
    split_ifs <;> rfl
  · simp only [routeAndExecuteRequest, hp]
    cases hres : resolveCapability req capabilityMap with
    | none => simp
    | some serverId =>
      cases hinst : getInst serverId with
      | none => simp [hinst]
      | some inst =>
        cases hproxy : proxy req with
        | threw msg => simp [hinst, hproxy]
        | responded resp =>
          rcases h with h1 | h2 | ⟨s2, hs2, hi2⟩ | ⟨m2, hm2⟩
          · exact absurd h1 hp
          · rw [hres] at h2
            cases h2
          · rw [hres] at hs2
            injection hs2 with he
            subst he
            rw [hinst] at hi2
            cases hi2
          · rw [hproxy] at hm2
            cases hm2

/-- C8, witness: a ping with numeric id 42 answers with numeric id 42,
and an unroutable tools/call with string id abc answers with string id
abc. -/
theorem gateway_id_preserved_witness :
    (routeAndExecuteRequest pingNum42 capsEx noInst proxyThrew [] [] []).id = RpcId.num 42
  ∧ (routeAndExecuteRequest reqStrAbc capsEx noInst proxyThrew [] [] []).id = RpcId.str "abc" :=
  ⟨gateway_id_preserved pingNum42 capsEx noInst proxyThrew [] [] [] (Or.inl rfl),
   gateway_id_preserved reqStrAbc capsEx noInst proxyThrew [] [] [] (Or.inr (Or.inl rfl))⟩

/-- C7 counterexample: an HTTP request arriving with no session while the
session capacity is exhausted fails, and what comes back is the plain
GatewayHTTPResponse shape with success false and an error string, not a
JSON-RPC error envelope, refuting the claim that every failing HTTP
request yields a well-formed JSON-RPC error object. -/
theorem capacity_error_not_jsonrpc :
    handleHttpRequest false false (Option.some bodyOkEx) routeConst
      = HttpReply.plain false "Maximum concurrent sessions reached"
  ∧ (handleHttpRequest false false (Option.some bodyOkEx) routeConst).isJsonRpc = false := by
  decide

/-- C7 amended: transport-level failures on the HTTP path, namely the
session-capacity rejection and a malformed JSON-RPC envelope, are
returned as the plain success-false GatewayHTTPResponse body rather than
a JSON-RPC error object; a request that passes session establishment and
envelope validation is answered with the JSON-RPC response produced by
routing; WebSocket clients do receive a JSON-RPC error frame, code
-32700, whenever their frame fails to parse or validate. -/
theorem http_ws_error_shapes (hasSession canCreate : Bool) (body : Option RawBody)
    (route : MCPRequest → MCPResponse) (w : WsRaw) :
    (hasSession = false → canCreate = false →
      handleHttpRequest hasSession canCreate body route
        = HttpReply.plain false "Maximum concurrent sessions reached")
  ∧ (∀ msg, (hasSession || canCreate) = true → handleHttpToMCP body = Except.error msg →
      handleHttpRequest hasSession canCreate body route = HttpReply.plain false msg)
  ∧ (∀ req, (hasSession || canCreate) = true → handleHttpToMCP body = Except.ok req →
      handleHttpRequest hasSession canCreate body route = HttpReply.rpc (route req))
  ∧ ((handleWebSocketMessage w).1 = Option.none →
      (handleWebSocketMessage w).2 = Option.some parseErrorResp) := by
  refine ⟨?_, ?_, ?_, ?_⟩
  · intro hs hc
    subst hs
    subst hc
    rfl
  · intro msg hok hbody
    have hcond : (!hasSession && !canCreate) = false := by
      cases hasSession <;> cases canCreate <;> simp at hok ⊢
    simp [handleHttpRequest, hcond, hbody]
  · intro req hok hbody
    have hcond : (!hasSession && !canCreate) = false := by
      cases hasSession <;> cases canCreate <;> simp at hok ⊢
    simp [handleHttpRequest, hcond, hbody]
  · intro hnone
    cases w with
    | malformed => rfl
    | parsed b =>
      cases b with
      | none => rfl
      | some rb =>
        by_cases hv : rb.jsonrpc = Option.some "2.0" ∧ ¬ rb.method = ""
        · simp [handleWebSocketMessage, hv.1, hv.2] at hnone
        · simp only [handleWebSocketMessage]
          rw [if_neg (by simpa using hv)]

/-- C7 amended, witness: at capacity the reply is the plain shape, and a
malformed WebSocket frame gets the -32700 JSON-RPC frame. -/
theorem http_ws_error_shapes_witness :
    handleHttpRequest false false (Option.some bodyOkEx) routeConst
      = HttpReply.plain false "Maximum concurrent sessions reached"
  ∧ (handleWebSocketMessage WsRaw.malformed).2 = Option.some parseErrorResp :=
  ⟨(http_ws_error_shapes false false (Option.some bodyOkEx) routeConst WsRaw.malformed).1 rfl rfl,
   (http_ws_error_shapes false false (Option.some bodyOkEx) routeConst WsRaw.malformed).2.2.2 rfl⟩

end OmniGateway
